import Mathlib

/-!
Verification of the forge-cli PoolSizer (`php/__init__.py`,
`calculate_fpm_pool_settings`) and LineageStore (`state/__init__.py`)
against their specification.

Modelling conventions:
* Python floats are modelled as rationals (`ℚ`); every arithmetic operation
  performed by the sizing code (division by powers of two, multiplication by
  the decimal reservation fractions, comparison against integer tier bounds)
  is exact at the inputs the claims quantify over.
* Python `int(...)` truncates toward zero (`pyInt`); Python `//` floors
  (`Int.fdiv`).
* Python dicts are insertion-ordered association lists with unique keys
  (`List (String × _)`); `d[k] = v` replaces in place or appends (`pySet`),
  `d.get(k)` scans (`pyGet`), `{**d, **e}` folds `pySet` (`pyMerge`),
  `del d[k]` removes the key (`pyDel`).
* `datetime.now().isoformat()` is modelled by a logical clock: each public
  store operation runs at one tick, and every `now()` inside it reads that
  tick; the clock advances once per operation.
* `uuid.uuid4()[:8]` in `add_pending_operation` is modelled as a
  caller-supplied identifier (the draw of the generator is an input).
* `list(set(xs))` has unspecified order in Python; it is modelled as a
  deterministic deduplication, and every statement about it is at the level
  of membership (set semantics).
-/

namespace Forge

/-- Python `int(q)`: truncation toward zero. -/
def pyInt (q : ℚ) : ℤ := if 0 ≤ q then ⌊q⌋ else -⌊-q⌋

/-! ### Python dict model -/

/-- `d.get(k)` on a Python dict. -/
def pyGet {α : Type} : List (String × α) → String → Option α
  | [], _ => none
  | p :: rest, k' => if p.1 = k' then some p.2 else pyGet rest k'

/-- `d[k] = v` on a Python dict: replace in place, else append. -/
def pySet {α : Type} (d : List (String × α)) (k : String) (v : α) :
    List (String × α) :=
  if d.any (fun p => p.1 = k) then
    d.map (fun p => if p.1 = k then (k, v) else p)
  else
    d ++ [(k, v)]

/-- `{**d, **e}`: update `d` with every pair of `e`, in order. -/
def pyMerge {α : Type} (d e : List (String × α)) : List (String × α) :=
  e.foldl (fun acc kv => pySet acc kv.1 kv.2) d

/-- `del d[k]`. -/
def pyDel {α : Type} (d : List (String × α)) (k : String) :
    List (String × α) :=
  d.filter (fun p => p.1 ≠ k)

/-! ### JSON values as stored by the state module -/

/-- Scalar JSON values (the shapes the store writes into nested maps). -/
inductive JScal where
  | null
  | jbool (b : Bool)
  | jint (n : ℤ)
  | jstr (s : String)
deriving DecidableEq, Repr

/-- JSON values appearing in records and lineage snapshots: scalars, lists
of extension names, and one level of nested map (`config`, `data`). -/
inductive JVal where
  | null
  | jbool (b : Bool)
  | jint (n : ℤ)
  | jstr (s : String)
  | jlist (xs : List String)
  | jdict (d : List (String × JScal))
deriving DecidableEq, Repr

/-- A Python dict holding JSON values (site / PHP / operation records and
lineage snapshots). -/
abbrev Dct := List (String × JVal)

/-! ### PoolSizer (`php/__init__.py`, `calculate_fpm_pool_settings`)

The source takes a `specs` dict produced by `get_server_specs()` (byte
counts and a CPU count) and an `avg_process_mb` int, and returns a dict of
pool settings.  Both are embedded as structures with the same field names
as the dict keys. -/

/-- The `specs` dict from `get_server_specs()`: byte counts plus CPU count. -/
structure ServerSpecs where
  ram_total : ℤ
  ram_available : ℤ
  swap_total : ℤ
  swap_available : ℤ
  cpu_count : ℤ
deriving DecidableEq, Repr

/-- The dict returned by `calculate_fpm_pool_settings`.  `pm.max_children`
etc. are field names with the `pm.` prefix dropped;
`pm.process_idle_timeout` is the constant string `"10s"` and is omitted. -/
structure PoolSettings where
  pm : String
  max_children : ℤ
  start_servers : ℤ
  min_spare_servers : ℤ
  max_spare_servers : ℤ
  max_requests : ℤ
  server_size : String
  ram_mb : ℤ
  swap_mb : ℤ
  cpu_count : ℤ
  available_for_php_mb : ℤ
  avg_process_mb : ℤ
deriving DecidableEq, Repr

/-- `calculate_fpm_pool_settings(specs, avg_process_mb)`
(`php/__init__.py` lines 722-798), translated clause by clause.  The two
assignments per branch of each Python `if/elif` ladder are bundled into a
pair / tuple, projected right after. -/
def calculate_fpm_pool_settings (specs : ServerSpecs) (avg_process_mb : ℤ) :
    PoolSettings :=
  let ram_mb : ℚ := (specs.ram_total : ℚ) / 1024 / 1024
  let swap_mb : ℚ := (specs.swap_total : ℚ) / 1024 / 1024
  let cpu_count : ℤ := specs.cpu_count
  let rs : ℚ × String :=
    if ram_mb ≤ 1024 then (40 / 100, "small")
    else if ram_mb ≤ 4096 then (30 / 100, "medium")
    else if ram_mb ≤ 16384 then (25 / 100, "large")
    else (20 / 100, "enterprise")
  let reserved_pct : ℚ := rs.1
  let server_size : String := rs.2
  let avail0 : ℚ := ram_mb * (1 - reserved_pct)
  let available_for_php : ℚ :=
    if 0 < swap_mb then avail0 + swap_mb * (25 / 100) else avail0
  let max_children : ℤ :=
    max 2 (min (pyInt (available_for_php / (avg_process_mb : ℚ))) 500)
  let sv : String × ℤ × ℤ × ℤ :=
    if server_size = "small" then
      ("ondemand", 2, 1, 3)
    else if server_size = "medium" then
      ("dynamic", max 2 cpu_count, max 1 (Int.fdiv cpu_count 2),
        max 3 (cpu_count * 2))
    else
      ("dynamic", max 4 (cpu_count * 2), max 2 cpu_count,
        max 6 (cpu_count * 4))
  let pm_type : String := sv.1
  let start_servers : ℤ := min sv.2.1 (Int.fdiv max_children 2)
  let min_spare : ℤ := min sv.2.2.1 start_servers
  let max_spare : ℤ := min sv.2.2.2 (Int.fdiv max_children 2)
  { pm := pm_type
    max_children := max_children
    start_servers := start_servers
    min_spare_servers := min_spare
    max_spare_servers := max_spare
    max_requests := 500
    server_size := server_size
    ram_mb := pyInt ram_mb
    swap_mb := pyInt swap_mb
    cpu_count := cpu_count
    available_for_php_mb := pyInt available_for_php
    avg_process_mb := avg_process_mb }

/-- The reserved fraction ladder of `calculate_fpm_pool_settings`, on its
own for stating characterization lemmas: RAM available to PHP in MB. -/
def availableForPhpMb (specs : ServerSpecs) : ℚ :=
  let ram_mb : ℚ := (specs.ram_total : ℚ) / 1024 / 1024
  let swap_mb : ℚ := (specs.swap_total : ℚ) / 1024 / 1024
  let reserved_pct : ℚ :=
    if ram_mb ≤ 1024 then 40 / 100
    else if ram_mb ≤ 4096 then 30 / 100
    else if ram_mb ≤ 16384 then 25 / 100
    else 20 / 100
  let avail0 : ℚ := ram_mb * (1 - reserved_pct)
  if 0 < swap_mb then avail0 + swap_mb * (25 / 100) else avail0

/-! ### LineageStore (`state/__init__.py`)

The module keeps two JSON files: `state.json` (current-state table) and
`lineage.json` (append-only audit log).  Loading and saving are embedded as
explicit state passing: every public operation maps a `World` (state table,
lineage log, logical clock) to a new `World`. -/

/-- One entry of `lineage.json` (the `entry` dict built by
`record_lineage`). -/
structure LEntry where
  timestamp : ℤ
  entity_type : String
  entity_id : String
  action : String
  old_state : Option Dct
  new_state : Option Dct
  metadata : Dct
deriving DecidableEq, Repr

/-- The JSON document held in `state.json` (`get_default_state` shape;
the constant `version` field is omitted). -/
structure FState where
  sites : List (String × Dct)
  php : List (String × Dct)
  pending_operations : List Dct
  last_updated : Option ℤ
deriving DecidableEq, Repr

/-- The full persistent picture: both files plus the logical clock standing
in for `datetime.now()`. -/
structure World where
  state : FState
  lineage : List LEntry
  clock : ℤ
deriving DecidableEq, Repr

/-- `datetime.now().isoformat()` at tick `t`. -/
def jnow (t : ℤ) : JVal := .jint t

/-- Python truthiness of an optional dict: `None` and `{}` are falsy. -/
def pyTruthy : Option Dct → Bool
  | none => false
  | some d => !d.isEmpty

/-- An optional Python int rendered as a JSON value (`None` becomes null). -/
def optInt : Option ℤ → JVal
  | none => .null
  | some n => .jint n

/-- An optional Python string rendered as a JSON value. -/
def optStr : Option String → JVal
  | none => .null
  | some s => .jstr s

/-- `save_state(state)`: stamps `last_updated` with `now()` and writes the
file; no table is modified or trimmed. -/
def save_state (s : FState) (t : ℤ) : FState :=
  { s with last_updated := some t }

/-- `save_lineage(lineage)`: keeps only the last 1000 entries
(`lineage = lineage[-1000:]` when `len(lineage) > 1000`). -/
def save_lineage (l : List LEntry) : List LEntry :=
  if 1000 < l.length then l.drop (l.length - 1000) else l

/-- `record_lineage(...)`: appends one entry and saves (`metadata or {}`
is folded into the `metadata` argument). -/
def record_lineage (l : List LEntry) (t : ℤ)
    (entity_type entity_id action : String)
    (old_state new_state : Option Dct) (metadata : Dct) : List LEntry :=
  save_lineage
    (l ++ [⟨t, entity_type, entity_id, action, old_state, new_state, metadata⟩])

/-- `save_site_state(domain, site_type, ssl_enabled, port, document_root,
php_version, enabled, extra)` (lines 63-103): builds the record dict (core
fields first, then `**(extra or {})`), stores it under the domain, saves,
and records lineage with action `"update"` when a prior record existed
(Python truthiness) else `"create"`. -/
def save_site_state (w : World) (domain site_type : String)
    (ssl_enabled : Bool) (port : Option ℤ)
    (document_root php_version : Option String) (enabled : Bool)
    (extra : Dct) : World :=
  let t := w.clock
  let st := w.state
  let old_state := pyGet st.sites domain
  let record : Dct := pyMerge
    [("domain", .jstr domain),
     ("type", .jstr site_type),
     ("ssl_enabled", .jbool ssl_enabled),
     ("port", optInt port),
     ("document_root", optStr document_root),
     ("php_version", optStr php_version),
     ("enabled", .jbool enabled),
     ("created_at",
       (pyGet ((pyGet st.sites domain).getD []) "created_at").getD (jnow t)),
     ("updated_at", jnow t)]
    extra
  let st1 := save_state { st with sites := pySet st.sites domain record } t
  let lineage1 := record_lineage w.lineage t "site" domain
    (if pyTruthy old_state then "update" else "create") old_state
    (some record) []
  ⟨st1, lineage1, t + 1⟩

/-- `update_site_ssl(domain, ssl_enabled)` (lines 106-122): does nothing
when the domain is unknown; otherwise rewrites only `ssl_enabled` and
`updated_at` and logs a partial `{ssl_enabled}` snapshot pair. -/
def update_site_ssl (w : World) (domain : String) (ssl_enabled : Bool) :
    World :=
  let t := w.clock
  let st := w.state
  match pyGet st.sites domain with
  | none => { w with clock := t + 1 }
  | some site =>
    let old_ssl : JVal := (pyGet site "ssl_enabled").getD .null
    let site1 :=
      pySet (pySet site "ssl_enabled" (.jbool ssl_enabled)) "updated_at"
        (jnow t)
    let st1 := save_state { st with sites := pySet st.sites domain site1 } t
    let lineage1 := record_lineage w.lineage t "site" domain "ssl_update"
      (some [("ssl_enabled", old_ssl)])
      (some [("ssl_enabled", .jbool ssl_enabled)]) []
    ⟨st1, lineage1, t + 1⟩

/-- `delete_site_state(domain)` (lines 125-140): no-op when unknown, else
removes the record and logs old_state = full record, new_state = null. -/
def delete_site_state (w : World) (domain : String) : World :=
  let t := w.clock
  let st := w.state
  match pyGet st.sites domain with
  | none => { w with clock := t + 1 }
  | some old_state =>
    let st1 := save_state { st with sites := pyDel st.sites domain } t
    let lineage1 := record_lineage w.lineage t "site" domain "delete"
      (some old_state) none []
    ⟨st1, lineage1, t + 1⟩

/-- `save_php_state(version, extensions, config)` (lines 153-179): stores a
fresh record whose `extensions` field is exactly the argument list
(`installed_at` preserved from any prior record), and records lineage under
entity type `"php"`. -/
def save_php_state (w : World) (version : String) (extensions : List String)
    (config : Option (List (String × JScal))) : World :=
  let t := w.clock
  let st := w.state
  let old_state := pyGet st.php version
  let record : Dct :=
    [("version", .jstr version),
     ("extensions", .jlist extensions),
     ("config", .jdict (config.getD [])),
     ("installed_at",
       (pyGet ((pyGet st.php version).getD []) "installed_at").getD (jnow t)),
     ("updated_at", jnow t)]
  let st1 := save_state { st with php := pySet st.php version record } t
  let lineage1 := record_lineage w.lineage t "php" version
    (if pyTruthy old_state then "update" else "install") old_state
    (some record) []
  ⟨st1, lineage1, t + 1⟩

/-- `list(set(old + new))`: set union of two extension lists; Python leaves
the order unspecified, modelled as order-normalized deduplication. -/
def pySetUnion (xs ys : List String) : List String := (xs ++ ys).dedup

/-- `add_php_extensions(version, extensions)` (lines 188-217): creates a
stub record when the version is unknown, unions the extension lists, and
records lineage under entity type `"php_extensions"` with partial
`{extensions}` snapshots. -/
def add_php_extensions (w : World) (version : String)
    (extensions : List String) : World :=
  let t := w.clock
  let st := w.state
  let php0 :=
    if (pyGet st.php version).isSome then st.php
    else
      pySet st.php version
        [("version", .jstr version), ("extensions", .jlist []),
         ("installed_at", jnow t)]
  let record := (pyGet php0 version).getD []
  let old_extensions : List String :=
    match pyGet record "extensions" with
    | some (.jlist xs) => xs
    | _ => []
  let new_extensions := pySetUnion old_extensions extensions
  let record1 :=
    pySet (pySet record "extensions" (.jlist new_extensions)) "updated_at"
      (jnow t)
  let st1 := save_state { st with php := pySet php0 version record1 } t
  let lineage1 := record_lineage w.lineage t "php_extensions" version "add"
    (some [("extensions", .jlist old_extensions)])
    (some [("extensions", .jlist new_extensions)]) []
  ⟨st1, lineage1, t + 1⟩

/-- `add_pending_operation(op_type, data)` (lines 224-253): the uuid
`str(uuid.uuid4())[:8]` is an explicit input `op_id` here. -/
def add_pending_operation (w : World) (op_id op_type : String)
    (data : List (String × JScal)) : World :=
  let t := w.clock
  let st := w.state
  let operation : Dct :=
    [("id", .jstr op_id), ("type", .jstr op_type), ("data", .jdict data),
     ("created_at", jnow t), ("status", .jstr "pending")]
  let st1 :=
    save_state
      { st with pending_operations := st.pending_operations ++ [operation] } t
  let lineage1 :=
    record_lineage w.lineage t "operation" op_id "start" none
      (some operation) []
  ⟨st1, lineage1, t + 1⟩

/-- The loop body of `complete_pending_operation`: walk the list, rewrite
the first operation whose `id` matches (status, then completed_at), stop
there (`break`); also reports whether a match was found. -/
def completeFirst (t : ℤ) (op_id : String) :
    List Dct → List Dct × Bool
  | [] => ([], false)
  | op :: rest =>
    if pyGet op "id" = some (.jstr op_id) then
      (pySet (pySet op "status" (.jstr "complete")) "completed_at" (jnow t)
         :: rest, true)
    else
      let r := completeFirst t op_id rest
      (op :: r.1, r.2)

/-- `complete_pending_operation(op_id)` (lines 256-273): the match test is
on `id` alone — the current status is not consulted.  Lineage is recorded
inside the loop (only when a match was found); `save_state` runs
unconditionally afterwards. -/
def complete_pending_operation (w : World) (op_id : String) : World :=
  let t := w.clock
  let st := w.state
  let r := completeFirst t op_id st.pending_operations
  let lineage1 :=
    if r.2 then
      record_lineage w.lineage t "operation" op_id "complete"
        (some [("status", .jstr "pending")])
        (some [("status", .jstr "complete")]) []
    else w.lineage
  let st1 := save_state { st with pending_operations := r.1 } t
  ⟨st1, lineage1, t + 1⟩

/-- `get_pending_operations(op_type)` (lines 276-285); `if op_type:` is
Python truthiness, so an empty string does not filter. -/
def get_pending_operations (st : FState) (op_type : Option String) :
    List Dct :=
  let operations := st.pending_operations.filter
    (fun op => pyGet op "status" = some (.jstr "pending"))
  match op_type with
  | some ty =>
    if ty = "" then operations
    else operations.filter (fun op => pyGet op "type" = some (.jstr ty))
  | none => operations

/-- `get_entity_history(entity_type, entity_id)` (lines 402-408). -/
def get_entity_history (l : List LEntry) (entity_type entity_id : String) :
    List LEntry :=
  l.filter (fun e => e.entity_type == entity_type && e.entity_id == entity_id)

/-- `get_recent_changes(limit)` (lines 411-414): `lineage[-limit:]` for a
non-negative int `limit`.  In Python `-0` is `0`, so `limit = 0` slices the
whole list; otherwise the slice starts at `max(len - limit, 0)`, which is
truncated subtraction. -/
def get_recent_changes (l : List LEntry) (limit : ℕ) : List LEntry :=
  if limit = 0 then l else l.drop (l.length - limit)

/-- The reconstruction of claim P6: fold an entity's history in order,
taking each entry's `new_state` as the entity's value after that entry
(starting from absence). -/
def reconstruct (h : List LEntry) : Option Dct :=
  h.foldl (fun _ e => e.new_state) none

/-- The mutating operations of the state module, as trace alphabet.  The
uuid drawn inside `add_pending_operation` is an explicit input. -/
inductive Op where
  | saveSite (domain site_type : String) (ssl_enabled : Bool)
      (port : Option ℤ) (document_root php_version : Option String)
      (enabled : Bool) (extra : Dct)
  | updateSSL (domain : String) (ssl_enabled : Bool)
  | deleteSite (domain : String)
  | savePhp (version : String) (extensions : List String)
      (config : Option (List (String × JScal)))
  | addExtensions (version : String) (extensions : List String)
  | addOperation (op_id op_type : String) (data : List (String × JScal))
  | completeOperation (op_id : String)
deriving DecidableEq, Repr

/-- Executes one operation against the persistent picture. -/
def step : Op → World → World
  | .saveSite d ty ssl port doc phpv en ex, w =>
    save_site_state w d ty ssl port doc phpv en ex
  | .updateSSL d ssl, w => update_site_ssl w d ssl
  | .deleteSite d, w => delete_site_state w d
  | .savePhp v e c, w => save_php_state w v e c
  | .addExtensions v e, w => add_php_extensions w v e
  | .addOperation i ty da, w => add_pending_operation w i ty da
  | .completeOperation i, w => complete_pending_operation w i

/-- Fresh install: empty state table, empty lineage file, clock zero. -/
def initialWorld : World := ⟨⟨[], [], [], none⟩, [], 0⟩

/-- Runs a trace of operations left to right. -/
def runOps (os : List Op) (w : World) : World :=
  os.foldl (fun w o => step o w) w

/-- Site operations that snapshot the full record in `new_state`
(`save_site_state` and `delete_site_state`). -/
def isFullSiteOp : Op → Bool
  | .saveSite .. => true
  | .deleteSite .. => true
  | _ => false

end Forge



namespace Forge

/-! ### Python dict lemmas -/

/-- Unfolding lemma for `pyGet` on a cons cell. -/
theorem pyGet_cons {α : Type} (p : String × α) (rest : List (String × α))
    (k' : String) :
    pyGet (p :: rest) k' = if p.1 = k' then some p.2 else pyGet rest k' := rfl

/-- Replacing the value at key `k` leaves lookups of other keys alone. -/
theorem pyGet_map_ne {α : Type} (d : List (String × α)) (k k' : String)
    (v : α) (h : k ≠ k') :
    pyGet (d.map (fun p => if p.1 = k then (k, v) else p)) k' = pyGet d k' := by
  induction d with
  | nil => rfl
  | cons p rest ih =>
    rw [List.map_cons]
    by_cases hp : p.1 = k
    · rw [if_pos hp, pyGet_cons, pyGet_cons, ih]
      rw [show ((k, v) : String × α).1 = k from rfl]
      rw [if_neg h, if_neg (fun hh : p.1 = k' => h (hp.symm.trans hh))]
    · rw [if_neg hp, pyGet_cons, pyGet_cons, ih]

/-- `pySet` commutes with cons when the head has a different key. -/
theorem pySet_cons_ne {α : Type} (p : String × α) (rest : List (String × α))
    (k : String) (v : α) (h : p.1 ≠ k) :
    pySet (p :: rest) k v = p :: pySet rest k v := by
  by_cases hr : rest.any (fun q => q.1 = k)
  · simp [pySet, hr, h]
  · simp [pySet, hr, h]

/-- Lookup after `d[k] = v`. -/
theorem pyGet_pySet {α : Type} (d : List (String × α)) (k k' : String)
    (v : α) :
    pyGet (pySet d k v) k' = if k = k' then some v else pyGet d k' := by
  induction d with
  | nil => simp [pySet, pyGet]
  | cons p rest ih =>
    by_cases hp : p.1 = k
    · have hany : (p :: rest).any (fun q => q.1 = k) = true := by
        simp [List.any_cons, hp]
      rw [pySet, if_pos hany, List.map_cons, if_pos hp, pyGet_cons]
      rw [show ((k, v) : String × α).1 = k from rfl]
      by_cases hk : k = k'
      · rw [if_pos hk, if_pos hk]
      · rw [if_neg hk, if_neg hk, pyGet_map_ne rest k k' v hk, pyGet_cons,
          if_neg (fun hh : p.1 = k' => hk (hp.symm.trans hh))]
    · rw [pySet_cons_ne p rest k v hp, pyGet_cons, ih, pyGet_cons]
      by_cases hq : p.1 = k'
      · rw [if_pos hq, if_neg (fun hh : k = k' => hp (hh ▸ hq)), if_pos hq]
      · rw [if_neg hq, if_neg hq]

/-- Lookup after `del d[k]`. -/
theorem pyGet_pyDel {α : Type} (d : List (String × α)) (k k' : String) :
    pyGet (pyDel d k) k' = if k = k' then none else pyGet d k' := by
  induction d with
  | nil => simp [pyDel, pyGet]
  | cons p rest ih =>
    rw [pyDel, List.filter_cons] at *
    by_cases hp : p.1 = k
    · rw [if_neg (by simp [hp]), ih, pyGet_cons]
      by_cases hk : k = k'
      · rw [if_pos hk, if_pos hk]
      · rw [if_neg hk, if_neg hk,
          if_neg (fun hh : p.1 = k' => hk (hp.symm.trans hh))]
    · rw [if_pos (by simp [hp]), pyGet_cons, ih, pyGet_cons]
      by_cases hq : p.1 = k'
      · rw [if_pos hq, if_neg (fun hh : k = k' => hp (hh ▸ hq)), if_pos hq]
      · rw [if_neg hq, if_neg hq]

/-- Unfolding lemma for `pyMerge` on a cons cell. -/
theorem pyMerge_cons {α : Type} (d : List (String × α)) (q : String × α)
    (e : List (String × α)) :
    pyMerge d (q :: e) = pyMerge (pySet d q.1 q.2) e := rfl

/-- Merging a dict that never mentions `k` leaves `k`-lookups alone. -/
theorem pyGet_pyMerge_not_mem {α : Type} (d e : List (String × α))
    (k : String) (h : k ∉ e.map Prod.fst) :
    pyGet (pyMerge d e) k = pyGet d k := by
  induction e generalizing d with
  | nil => rfl
  | cons q e' ih =>
    simp only [List.map_cons, List.mem_cons, not_or] at h
    rw [pyMerge_cons, ih _ h.2, pyGet_pySet,
      if_neg (fun hh : q.1 = k => h.1 hh.symm)]

/-- Merging a duplicate-free dict that maps `k` to `v` makes the `k`-lookup
return `v`, whatever was there before. -/
theorem pyGet_pyMerge_mem {α : Type} (d e : List (String × α))
    (k : String) (v : α) (hnd : (e.map Prod.fst).Nodup)
    (h : pyGet e k = some v) :
    pyGet (pyMerge d e) k = some v := by
  induction e generalizing d with
  | nil => simp [pyGet] at h
  | cons q e' ih =>
    rw [List.map_cons, List.nodup_cons] at hnd
    rw [pyGet_cons] at h
    by_cases hq : q.1 = k
    · rw [if_pos hq] at h
      rw [pyMerge_cons, pyGet_pyMerge_not_mem _ _ _ (hq ▸ hnd.1),
        pyGet_pySet, if_pos hq, h]
    · rw [if_neg hq] at h
      rw [pyMerge_cons, ih _ hnd.2 h]

/-! ### PoolSizer lemmas -/

/-- Python truncation is monotone on non-negative inputs. -/
theorem pyInt_mono {p q : ℚ} (hp : 0 ≤ p) (h : p ≤ q) :
    pyInt p ≤ pyInt q := by
  unfold pyInt
  rw [if_pos hp, if_pos (hp.trans h)]
  exact Int.floor_le_floor h

/-- Python truncation of a non-positive input is non-positive. -/
theorem pyInt_nonpos {q : ℚ} (h : q ≤ 0) : pyInt q ≤ 0 := by
  unfold pyInt
  split_ifs with h0
  · have : q = 0 := le_antisymm h h0
    simp [this]
  · have : (0 : ℤ) ≤ ⌊-q⌋ := Int.floor_nonneg.2 (by linarith)
    omega

/-- The `max_children` clamp of `calculate_fpm_pool_settings`, factored
through `availableForPhpMb`. -/
theorem max_children_eq (specs : ServerSpecs) (avg : ℤ) :
    (calculate_fpm_pool_settings specs avg).max_children =
      max 2 (min (pyInt (availableForPhpMb specs / (avg : ℚ))) 500) := by
  simp only [calculate_fpm_pool_settings, availableForPhpMb]
  split_ifs <;> rfl

/-- The size-class ladder of `calculate_fpm_pool_settings`. -/
theorem server_size_eq (specs : ServerSpecs) (avg : ℤ) :
    (calculate_fpm_pool_settings specs avg).server_size =
      (if (specs.ram_total : ℚ) / 1024 / 1024 ≤ 1024 then "small"
       else if (specs.ram_total : ℚ) / 1024 / 1024 ≤ 4096 then "medium"
       else if (specs.ram_total : ℚ) / 1024 / 1024 ≤ 16384 then "large"
       else "enterprise") := by
  simp only [calculate_fpm_pool_settings]
  split_ifs <;> rfl

/-- The process-manager mode: `ondemand` exactly for the small tier. -/
theorem pm_eq (specs : ServerSpecs) (avg : ℤ) :
    (calculate_fpm_pool_settings specs avg).pm =
      (if (specs.ram_total : ℚ) / 1024 / 1024 ≤ 1024 then "ondemand"
       else "dynamic") := by
  simp only [calculate_fpm_pool_settings]
  split_ifs <;> first | rfl | simp_all

/-- With non-negative RAM and swap, the memory available to PHP is
non-negative. -/
theorem availableForPhpMb_nonneg (specs : ServerSpecs)
    (hram : 0 ≤ specs.ram_total) (hswap : 0 ≤ specs.swap_total) :
    0 ≤ availableForPhpMb specs := by
  have hr0 : (0 : ℚ) ≤ (specs.ram_total : ℚ) := by exact_mod_cast hram
  have hs0 : (0 : ℚ) ≤ (specs.swap_total : ℚ) := by exact_mod_cast hswap
  have hr : (0 : ℚ) ≤ (specs.ram_total : ℚ) / 1024 / 1024 :=
    div_nonneg (div_nonneg hr0 (by norm_num)) (by norm_num)
  have hs : (0 : ℚ) ≤ (specs.swap_total : ℚ) / 1024 / 1024 :=
    div_nonneg (div_nonneg hs0 (by norm_num)) (by norm_num)
  simp only [availableForPhpMb]
  split_ifs <;> nlinarith

end Forge

namespace Forge

/-! ### Lineage lemmas -/

/-- Length after `record_lineage`: one appended, then capped at 1000. -/
theorem record_lineage_length (l : List LEntry) (t : ℤ)
    (ty id act : String) (old nw : Option Dct) (md : Dct) :
    (record_lineage l t ty id act old nw md).length =
      min (l.length + 1) 1000 := by
  unfold record_lineage save_lineage
  split_ifs with h <;> simp at h ⊢ <;> omega

/-- `record_lineage` keeps a suffix of the appended log: trimming removes
oldest entries only. -/
theorem record_lineage_suffix (l : List LEntry) (t : ℤ)
    (ty id act : String) (old nw : Option Dct) (md : Dct) :
    record_lineage l t ty id act old nw md <:+
      l ++ [⟨t, ty, id, act, old, nw, md⟩] := by
  unfold record_lineage save_lineage
  split_ifs
  · exact List.drop_suffix _ _
  · exact List.suffix_refl _

/-- Below the cap, `save_lineage` is the identity. -/
theorem save_lineage_of_le (l : List LEntry) (h : l.length ≤ 1000) :
    save_lineage l = l := by
  unfold save_lineage
  rw [if_neg (by omega)]

/-- Below the cap, `record_lineage` is a plain append. -/
theorem record_lineage_of_lt (l : List LEntry) (t : ℤ)
    (ty id act : String) (old nw : Option Dct) (md : Dct)
    (h : l.length ≤ 999) :
    record_lineage l t ty id act old nw md =
      l ++ [⟨t, ty, id, act, old, nw, md⟩] := by
  unfold record_lineage
  rw [save_lineage_of_le]
  simp
  omega

/-- Appending a matching entry makes the history fold return its
`new_state`. -/
theorem reconstruct_append_match (l : List LEntry) (e : LEntry)
    (ty id : String)
    (hm : (e.entity_type == ty && e.entity_id == id) = true) :
    reconstruct (get_entity_history (l ++ [e]) ty id) = e.new_state := by
  unfold get_entity_history reconstruct
  rw [List.filter_append, List.foldl_append]
  simp [List.filter, hm]

/-- Appending a non-matching entry leaves the history fold unchanged. -/
theorem reconstruct_append_nomatch (l : List LEntry) (e : LEntry)
    (ty id : String)
    (hm : (e.entity_type == ty && e.entity_id == id) = false) :
    reconstruct (get_entity_history (l ++ [e]) ty id) =
      reconstruct (get_entity_history l ty id) := by
  unfold get_entity_history reconstruct
  rw [List.filter_append]
  simp [List.filter, hm]

/-- What `save_site_state` does to the sites table and the log (below the
cap): one full-record store plus one matching lineage entry. -/
theorem save_site_state_shape (w : World) (d ty : String) (ssl : Bool)
    (port : Option ℤ) (doc phpv : Option String) (en : Bool) (ex : Dct)
    (hlen : w.lineage.length ≤ 999) :
    ∃ r : Dct,
      (save_site_state w d ty ssl port doc phpv en ex).state.sites =
        pySet w.state.sites d r ∧
      (save_site_state w d ty ssl port doc phpv en ex).lineage =
        w.lineage ++
          [⟨w.clock, "site", d,
            if pyTruthy (pyGet w.state.sites d) then "update" else "create",
            pyGet w.state.sites d, some r, []⟩] := by
  refine ⟨_, rfl, ?_⟩
  simp only [save_site_state]
  rw [record_lineage_of_lt _ _ _ _ _ _ _ _ hlen]

/-- What `delete_site_state` does: either nothing (unknown domain) or one
removal plus one matching lineage entry with null `new_state`. -/
theorem delete_site_state_shape (w : World) (d : String)
    (hlen : w.lineage.length ≤ 999) :
    (pyGet w.state.sites d = none ∧
      (delete_site_state w d).state.sites = w.state.sites ∧
      (delete_site_state w d).lineage = w.lineage) ∨
    (∃ r : Dct, pyGet w.state.sites d = some r ∧
      (delete_site_state w d).state.sites = pyDel w.state.sites d ∧
      (delete_site_state w d).lineage = w.lineage ++
        [⟨w.clock, "site", d, "delete", some r, none, []⟩]) := by
  cases hg : pyGet w.state.sites d with
  | none =>
    left
    refine ⟨rfl, ?_, ?_⟩ <;> simp only [delete_site_state, hg]
  | some r =>
    right
    refine ⟨r, rfl, ?_, ?_⟩
    · simp only [delete_site_state, hg]
      rfl
    · simp only [delete_site_state, hg]
      rw [record_lineage_of_lt _ _ _ _ _ _ _ _ hlen]

/-- Unfolding lemma for `runOps`. -/
theorem runOps_cons (o : Op) (os : List Op) (w : World) :
    runOps (o :: os) w = runOps os (step o w) := rfl

/-- Invariant induction: over traces of full-snapshot site operations that
fit under the retention cap, the history fold tracks the sites table. -/
theorem siteInv_runOps (os : List Op) (w : World)
    (hops : ∀ o ∈ os, isFullSiteOp o = true)
    (hlen : w.lineage.length + os.length ≤ 1000)
    (hinv : ∀ d, reconstruct (get_entity_history w.lineage "site" d) =
      pyGet w.state.sites d) :
    ∀ d, reconstruct (get_entity_history (runOps os w).lineage "site" d) =
      pyGet (runOps os w).state.sites d := by
  induction os generalizing w with
  | nil => exact hinv
  | cons o os' ih =>
    have ho := hops o (List.mem_cons_self o os')
    have hos' : ∀ o' ∈ os', isFullSiteOp o' = true :=
      fun o' ho' => hops o' (List.mem_cons_of_mem o ho')
    have hlen1 : w.lineage.length ≤ 999 := by
      rw [List.length_cons] at hlen
      omega
    rw [runOps_cons]
    cases o with
    | saveSite dom ty ssl port doc phpv en ex =>
      obtain ⟨r, hs, hl⟩ :=
        save_site_state_shape w dom ty ssl port doc phpv en ex hlen1
      refine ih (step (.saveSite dom ty ssl port doc phpv en ex) w) hos' ?_ ?_
      · simp only [step, hl, List.length_append, List.length_cons,
          List.length_nil]
        rw [List.length_cons] at hlen
        omega
      · intro d0
        simp only [step, hl, hs]
        by_cases hd : dom = d0
        · rw [reconstruct_append_match _ _ _ _ (by simp [hd]),
            pyGet_pySet, if_pos hd]
        · rw [reconstruct_append_nomatch _ _ _ _ (by simp [hd]),
            pyGet_pySet, if_neg hd]
          exact hinv d0
    | deleteSite dom =>
      rcases delete_site_state_shape w dom hlen1 with
        ⟨hg, hs, hl⟩ | ⟨r, hg, hs, hl⟩
      · refine ih (step (.deleteSite dom) w) hos' ?_ ?_
        · simp only [step, hl]
          rw [List.length_cons] at hlen
          omega
        · intro d0
          simp only [step, hl, hs]
          exact hinv d0
      · refine ih (step (.deleteSite dom) w) hos' ?_ ?_
        · simp only [step, hl, List.length_append, List.length_cons,
            List.length_nil]
          rw [List.length_cons] at hlen
          omega
        · intro d0
          simp only [step, hl, hs]
          by_cases hd : dom = d0
          · rw [reconstruct_append_match _ _ _ _ (by simp [hd]),
              pyGet_pyDel, if_pos hd]
          · rw [reconstruct_append_nomatch _ _ _ _ (by simp [hd]),
              pyGet_pyDel, if_neg hd]
            exact hinv d0
    | updateSSL dom ssl => simp [isFullSiteOp] at ho
    | savePhp v e c => simp [isFullSiteOp] at ho
    | addExtensions v e => simp [isFullSiteOp] at ho
    | addOperation i ty da => simp [isFullSiteOp] at ho
    | completeOperation i => simp [isFullSiteOp] at ho

/-- `save_php_state` stores a record whose `extensions` field is exactly
the argument list. -/
theorem save_php_state_extensions (w : World) (v : String)
    (e : List String) (c : Option (List (String × JScal))) :
    ∃ r : Dct, pyGet (save_php_state w v e c).state.php v = some r ∧
      pyGet r "extensions" = some (.jlist e) := by
  refine ⟨[("version", .jstr v), ("extensions", .jlist e),
    ("config", .jdict (c.getD [])),
    ("installed_at",
      (pyGet ((pyGet w.state.php v).getD []) "installed_at").getD
        (jnow w.clock)),
    ("updated_at", jnow w.clock)], ?_, ?_⟩
  · show pyGet (pySet w.state.php v _) v = some _
    rw [pyGet_pySet, if_pos rfl]
  · simp [pyGet]

/-- `add_php_extensions` on a known version stores the set union of the
old and new extension lists. -/
theorem add_php_extensions_spec (w : World) (v : String) (e : List String)
    (r : Dct) (xs : List String)
    (hr : pyGet w.state.php v = some r)
    (hx : pyGet r "extensions" = some (.jlist xs)) :
    ∃ ys : List String,
      pyGet ((pyGet (add_php_extensions w v e).state.php v).getD [])
        "extensions" = some (.jlist ys) ∧
      ∀ x, x ∈ ys ↔ x ∈ xs ∨ x ∈ e := by
  refine ⟨pySetUnion xs e, ?_, ?_⟩
  · simp only [add_php_extensions, hr, Option.isSome_some, if_true,
      Option.getD_some, hx]
    show pyGet ((pyGet (pySet w.state.php v _) v).getD []) "extensions" =
      some (.jlist (pySetUnion xs e))
    rw [pyGet_pySet, if_pos rfl, Option.getD_some, pyGet_pySet,
      if_neg (show ¬ "updated_at" = "extensions" by decide), pyGet_pySet,
      if_pos rfl]
  · intro x
    simp [pySetUnion, List.mem_dedup, List.mem_append]

/-- The loop of `complete_pending_operation` changes nothing when no
operation carries the requested id. -/
theorem completeFirst_not_found (t : ℤ) (id : String) (ops : List Dct)
    (h : ∀ op ∈ ops, pyGet op "id" ≠ some (.jstr id)) :
    completeFirst t id ops = (ops, false) := by
  induction ops with
  | nil => rfl
  | cons op rest ih =>
    rw [completeFirst,
      if_neg (h op (List.mem_cons_self op rest)),
      ih (fun o ho => h o (List.mem_cons_of_mem op ho))]

/-- The loop of `complete_pending_operation` rewrites exactly the first
operation whose id matches and stops there. -/
theorem completeFirst_found (t : ℤ) (id : String) (pre : List Dct)
    (op : Dct) (post : List Dct)
    (hpre : ∀ o ∈ pre, pyGet o "id" ≠ some (.jstr id))
    (hop : pyGet op "id" = some (.jstr id)) :
    completeFirst t id (pre ++ op :: post) =
      (pre ++ (pySet (pySet op "status" (.jstr "complete")) "completed_at"
        (jnow t)) :: post, true) := by
  induction pre with
  | nil =>
    rw [List.nil_append, completeFirst, if_pos hop, List.nil_append]
  | cons q pre' ih =>
    rw [List.cons_append, completeFirst,
      if_neg (hpre q (List.mem_cons_self q pre')),
      ih (fun o ho => hpre o (List.mem_cons_of_mem q ho)), List.cons_append]

/-- Every operation keeps the lineage log under `max (previous, 1000)`. -/
theorem step_lineage_le (o : Op) (w : World) :
    (step o w).lineage.length ≤ max w.lineage.length 1000 := by
  cases o with
  | saveSite dom ty ssl port doc phpv en ex =>
    simp only [step, save_site_state, record_lineage_length]
    omega
  | updateSSL dom ssl =>
    simp only [step, update_site_ssl]
    cases hg : pyGet w.state.sites dom with
    | none => simp only []; omega
    | some site =>
      simp only [record_lineage_length]
      omega
  | deleteSite dom =>
    simp only [step, delete_site_state]
    cases hg : pyGet w.state.sites dom with
    | none => simp only []; omega
    | some r =>
      simp only [record_lineage_length]
      omega
  | savePhp v e c =>
    simp only [step, save_php_state, record_lineage_length]
    omega
  | addExtensions v e =>
    simp only [step, add_php_extensions, record_lineage_length]
    omega
  | addOperation i ty da =>
    simp only [step, add_pending_operation, record_lineage_length]
    omega
  | completeOperation i =>
    simp only [step, complete_pending_operation]
    split
    · simp only [record_lineage_length]
      omega
    · omega

end Forge

namespace Forge

/-! ### Claim theorems: PoolSizer -/

/-- Claim C5: for every valid `ServerSpecs` (positive RAM, non-negative
swap, at least one CPU) and every positive average worker size, the
returned settings satisfy `2 ≤ max_children ≤ 500`,
`min_spare_servers ≤ start_servers ≤ max_children // 2` and
`max_spare_servers ≤ max_children // 2` (`//` is Python floor division,
`Int.fdiv`). -/
theorem pool_settings_clamp_invariant (specs : ServerSpecs) (avg : ℤ)
    (_hram : 0 < specs.ram_total) (_hswap : 0 ≤ specs.swap_total)
    (_hcpu : 1 ≤ specs.cpu_count) (_havg : 0 < avg) :
    2 ≤ (calculate_fpm_pool_settings specs avg).max_children ∧
    (calculate_fpm_pool_settings specs avg).max_children ≤ 500 ∧
    (calculate_fpm_pool_settings specs avg).min_spare_servers ≤
      (calculate_fpm_pool_settings specs avg).start_servers ∧
    (calculate_fpm_pool_settings specs avg).start_servers ≤
      Int.fdiv (calculate_fpm_pool_settings specs avg).max_children 2 ∧
    (calculate_fpm_pool_settings specs avg).max_spare_servers ≤
      Int.fdiv (calculate_fpm_pool_settings specs avg).max_children 2 := by
  simp only [calculate_fpm_pool_settings]
  split_ifs <;>
    refine ⟨le_max_left _ _, max_le (by norm_num) (min_le_right _ _),
      min_le_right _ _, min_le_right _ _, min_le_right _ _⟩

/-- Witness for C5: a 4GB dual-core box sized at 50MB per worker. -/
theorem pool_settings_clamp_invariant_witness :
    (0 : ℤ) < 4294967296 ∧
    (2 ≤ (calculate_fpm_pool_settings ⟨4294967296, 0, 0, 0, 2⟩ 50).max_children ∧
      (calculate_fpm_pool_settings ⟨4294967296, 0, 0, 0, 2⟩ 50).max_children ≤ 500 ∧
      (calculate_fpm_pool_settings ⟨4294967296, 0, 0, 0, 2⟩ 50).min_spare_servers ≤
        (calculate_fpm_pool_settings ⟨4294967296, 0, 0, 0, 2⟩ 50).start_servers ∧
      (calculate_fpm_pool_settings ⟨4294967296, 0, 0, 0, 2⟩ 50).start_servers ≤
        Int.fdiv (calculate_fpm_pool_settings ⟨4294967296, 0, 0, 0, 2⟩ 50).max_children 2 ∧
      (calculate_fpm_pool_settings ⟨4294967296, 0, 0, 0, 2⟩ 50).max_spare_servers ≤
        Int.fdiv (calculate_fpm_pool_settings ⟨4294967296, 0, 0, 0, 2⟩ 50).max_children 2) :=
  ⟨by decide,
    pool_settings_clamp_invariant ⟨4294967296, 0, 0, 0, 2⟩ 50 (by decide)
      (by decide) (by decide) (by decide)⟩

/-- Claim C6: with the specs held fixed, a larger average worker size never
yields a larger `max_children`. -/
theorem max_children_antitone (specs : ServerSpecs) (a b : ℤ)
    (ha : 0 < a) (hab : a ≤ b) :
    (calculate_fpm_pool_settings specs b).max_children ≤
      (calculate_fpm_pool_settings specs a).max_children := by
  rw [max_children_eq, max_children_eq]
  rcases le_or_lt 0 (availableForPhpMb specs) with hv | hv
  · have haq : (0 : ℚ) < (a : ℚ) := by exact_mod_cast ha
    have habq : (a : ℚ) ≤ (b : ℚ) := by exact_mod_cast hab
    have hdiv : availableForPhpMb specs / (b : ℚ) ≤
        availableForPhpMb specs / (a : ℚ) :=
      div_le_div_of_nonneg_left hv haq habq
    have hdb : 0 ≤ availableForPhpMb specs / (b : ℚ) :=
      div_nonneg hv (haq.le.trans habq)
    exact max_le_max le_rfl (min_le_min (pyInt_mono hdb hdiv) le_rfl)
  · have hbq : (0 : ℚ) < (b : ℚ) := by
      exact_mod_cast lt_of_lt_of_le ha hab
    have hq : availableForPhpMb specs / (b : ℚ) ≤ 0 :=
      div_nonpos_of_nonpos_of_nonneg hv.le hbq.le
    have hz := pyInt_nonpos hq
    rw [max_eq_left (le_trans (min_le_left _ _) (by omega))]
    exact le_max_left _ _

/-- Witness for C6: 2GB of RAM, worker sizes 50MB versus 100MB. -/
theorem max_children_antitone_witness :
    (0 : ℤ) < 50 ∧ (50 : ℤ) ≤ 100 ∧
    (calculate_fpm_pool_settings ⟨2147483648, 0, 0, 0, 1⟩ 100).max_children ≤
      (calculate_fpm_pool_settings ⟨2147483648, 0, 0, 0, 1⟩ 50).max_children :=
  ⟨by decide, by decide,
    max_children_antitone ⟨2147483648, 0, 0, 0, 1⟩ 50 100 (by decide)
      (by decide)⟩

/-- Claim C7: the size-class boundaries.  RAM is a byte count in the code,
so 1024MB is 1073741824 bytes, 1025MB is 1074790400, 16384MB is
17179869184 and 16385MB is 17180917760. -/
theorem pool_sizer_tier_boundaries :
    ((calculate_fpm_pool_settings ⟨1073741824, 0, 0, 0, 1⟩ 50).server_size =
        "small" ∧
      (calculate_fpm_pool_settings ⟨1073741824, 0, 0, 0, 1⟩ 50).pm =
        "ondemand") ∧
    ((calculate_fpm_pool_settings ⟨1074790400, 0, 0, 0, 1⟩ 50).server_size =
        "medium" ∧
      (calculate_fpm_pool_settings ⟨1074790400, 0, 0, 0, 1⟩ 50).pm =
        "dynamic") ∧
    (calculate_fpm_pool_settings ⟨17179869184, 0, 0, 0, 1⟩ 50).server_size =
      "large" ∧
    (calculate_fpm_pool_settings ⟨17180917760, 0, 0, 0, 1⟩ 50).server_size =
      "enterprise" := by
  refine ⟨⟨?_, ?_⟩, ⟨?_, ?_⟩, ?_, ?_⟩
  · rw [server_size_eq]
    norm_num
  · rw [pm_eq]
    norm_num
  · rw [server_size_eq]
    norm_num
  · rw [pm_eq]
    norm_num
  · rw [server_size_eq]
    norm_num
  · rw [server_size_eq]
    norm_num

/-- Counterexample to claim C2 as stated: at the invalid input of zero RAM
and zero CPUs the function does not fail with any `InvalidSpecs` condition
— it returns a complete, ordinary `PoolSettings` (the derived-value clamp
turns zero available memory into `max_children = 2`).  The source has no
validation and no raise on this path. -/
theorem pool_sizer_returns_output_on_invalid_specs :
    calculate_fpm_pool_settings ⟨0, 0, 0, 0, 0⟩ 50 =
      ⟨"ondemand", 2, 1, 1, 1, 500, "small", 0, 0, 0, 0, 50⟩ := by
  simp only [calculate_fpm_pool_settings]
  norm_num [pyInt]

/-- Claim C2 as amended: `calculate_fpm_pool_settings` performs no input
validation at all.  For every specs with non-positive RAM (and any CPU
count, including zero) and positive average worker size it still returns a
settings record, classified "small", with `max_children` inside the
[2, 500] clamp; no error path exists. -/
theorem pool_sizer_never_fails (specs : ServerSpecs) (avg : ℤ)
    (hram : specs.ram_total ≤ 0) (_havg : 0 < avg) :
    (calculate_fpm_pool_settings specs avg).server_size = "small" ∧
    2 ≤ (calculate_fpm_pool_settings specs avg).max_children ∧
    (calculate_fpm_pool_settings specs avg).max_children ≤ 500 := by
  refine ⟨?_, ?_, ?_⟩
  · rw [server_size_eq, if_pos]
    have h0 : (specs.ram_total : ℚ) ≤ 0 := by exact_mod_cast hram
    have h1 : (specs.ram_total : ℚ) / 1024 / 1024 ≤ 0 := by
      apply div_nonpos_of_nonpos_of_nonneg _ (by norm_num)
      exact div_nonpos_of_nonpos_of_nonneg h0 (by norm_num)
    linarith
  · rw [max_children_eq]
    exact le_max_left _ _
  · rw [max_children_eq]
    exact max_le (by norm_num) (min_le_right _ _)

/-- Witness for amended C2: negative RAM, zero CPUs. -/
theorem pool_sizer_never_fails_witness :
    (-1024 : ℤ) ≤ 0 ∧
    ((calculate_fpm_pool_settings ⟨-1024, 0, 0, 0, 0⟩ 50).server_size =
        "small" ∧
      2 ≤ (calculate_fpm_pool_settings ⟨-1024, 0, 0, 0, 0⟩ 50).max_children ∧
      (calculate_fpm_pool_settings ⟨-1024, 0, 0, 0, 0⟩ 50).max_children ≤
        500) :=
  ⟨by decide,
    pool_sizer_never_fails ⟨-1024, 0, 0, 0, 0⟩ 50 (by decide) (by decide)⟩

end Forge

namespace Forge

/-! ### Claim theorems: LineageStore -/

/-- Counterexample to claim C1 as stated: create a site, then toggle its
SSL flag.  `update_site_ssl` logs only the partial `{ssl_enabled}` dict as
`new_state`, so folding the site's history yields that partial dict while
the state table holds the full record — the fold does not reproduce the
current value. -/
theorem ssl_update_breaks_history_fold :
    reconstruct (get_entity_history
      (runOps [.saveSite "x.com" "static" false none none none true [],
               .updateSSL "x.com" true] initialWorld).lineage "site"
      "x.com") ≠
    pyGet (runOps [.saveSite "x.com" "static" false none none none true [],
                   .updateSSL "x.com" true] initialWorld).state.sites
      "x.com" := by
  decide

/-- Claim C1 as amended: the fold does reproduce the current value for
site histories produced exclusively by the full-snapshot operations
(`save_site_state`, `delete_site_state`), for traces short enough that the
1000-entry retention cap never trims (partial-snapshot actions such as
`ssl_update`, `add` on extensions, and `complete` on operations break the
property, as does trimming away an entity's remaining entries). -/
theorem site_history_fold_reconstructs (os : List Op)
    (hops : ∀ o ∈ os, isFullSiteOp o = true) (hlen : os.length ≤ 1000)
    (d : String) :
    reconstruct
      (get_entity_history (runOps os initialWorld).lineage "site" d) =
      pyGet (runOps os initialWorld).state.sites d :=
  siteInv_runOps os initialWorld hops (by simpa [initialWorld] using hlen)
    (fun _ => rfl) d

/-- Witness for amended C1: one create followed by one delete of another
domain. -/
theorem site_history_fold_reconstructs_witness :
    ([Op.saveSite "a.com" "static" false none none none true [],
      Op.deleteSite "b.com"].length ≤ 1000) ∧
    reconstruct (get_entity_history
      (runOps [Op.saveSite "a.com" "static" false none none none true [],
               Op.deleteSite "b.com"] initialWorld).lineage "site"
      "a.com") =
      pyGet (runOps [Op.saveSite "a.com" "static" false none none none true [],
                     Op.deleteSite "b.com"] initialWorld).state.sites
        "a.com" :=
  ⟨by decide,
    site_history_fold_reconstructs
      [Op.saveSite "a.com" "static" false none none none true [],
       Op.deleteSite "b.com"] (by decide) (by decide) "a.com"⟩

/-- Counterexample to claim C3 as stated: upserting `"8.3"` with
`{"cli"}` and then with `{"fpm"}` leaves the stored extensions equal to
exactly `["fpm"]` — the prior `"cli"` is gone, the two calls did not
accumulate by set union. -/
theorem upsert_install_drops_prior_extensions :
    pyGet ((pyGet (runOps [.savePhp "8.3" ["cli"] none,
        .savePhp "8.3" ["fpm"] none] initialWorld).state.php "8.3").getD [])
      "extensions" = some (.jlist ["fpm"]) ∧
    "cli" ∉ (["fpm"] : List String) := by
  decide

/-- Claim C3 as amended: `save_php_state` (the spec's `upsert_install`)
replaces the stored extension list outright — a second upsert stores
exactly its own argument.  Set-union accumulation is provided by the
separate `add_php_extensions`: an upsert followed by an extension add
stores the union of both lists (as a set). -/
theorem extensions_replace_on_upsert_union_on_add (w : World) (v : String)
    (e1 e2 : List String) (c1 c2 : Option (List (String × JScal))) :
    (∃ r : Dct,
      pyGet (step (.savePhp v e2 c2)
        (step (.savePhp v e1 c1) w)).state.php v = some r ∧
      pyGet r "extensions" = some (.jlist e2)) ∧
    (∃ ys : List String,
      pyGet ((pyGet (step (.addExtensions v e2)
          (step (.savePhp v e1 c1) w)).state.php v).getD [])
        "extensions" = some (.jlist ys) ∧
      ∀ x, x ∈ ys ↔ x ∈ e1 ∨ x ∈ e2) := by
  constructor
  · exact save_php_state_extensions _ v e2 c2
  · obtain ⟨r, hr, hx⟩ := save_php_state_extensions w v e1 c1
    exact add_php_extensions_spec _ v e2 r e1 hr hx

/-- Counterexample to claim C4 as stated: add an operation, complete it
(after which its stored status is `"complete"`), then complete it again.
The claim calls the second completion a no-op, but it appends a third
lineage entry. -/
theorem complete_twice_logs_again :
    (runOps [.addOperation "ab12cd34" "deploy" [],
             .completeOperation "ab12cd34"]
        initialWorld).lineage.length = 2 ∧
    (runOps [.addOperation "ab12cd34" "deploy" [],
             .completeOperation "ab12cd34"]
        initialWorld).state.pending_operations.map
        (fun op => pyGet op "status") = [some (.jstr "complete")] ∧
    (runOps [.addOperation "ab12cd34" "deploy" [],
             .completeOperation "ab12cd34",
             .completeOperation "ab12cd34"]
        initialWorld).lineage.length = 3 := by
  decide

/-- Claim C4 as amended: `complete_pending_operation` is a no-op on the
pending list and the log exactly when the id is unknown; whenever some
operation carries the id — whatever its current status — the first such
operation has its status set to `"complete"` and `completed_at`
re-stamped, and exactly one lineage entry with action `"complete"` is
appended (so completing an already-complete operation is not a no-op). -/
theorem complete_pending_operation_cases (w : World) (op_id : String) :
    ((∀ op ∈ w.state.pending_operations,
        pyGet op "id" ≠ some (.jstr op_id)) →
      (complete_pending_operation w op_id).state.pending_operations =
        w.state.pending_operations ∧
      (complete_pending_operation w op_id).lineage = w.lineage) ∧
    (∀ pre op post, w.state.pending_operations = pre ++ op :: post →
      (∀ o ∈ pre, pyGet o "id" ≠ some (.jstr op_id)) →
      pyGet op "id" = some (.jstr op_id) →
      (complete_pending_operation w op_id).state.pending_operations =
        pre ++ (pySet (pySet op "status" (.jstr "complete")) "completed_at"
          (jnow w.clock)) :: post ∧
      (complete_pending_operation w op_id).lineage =
        record_lineage w.lineage w.clock "operation" op_id "complete"
          (some [("status", .jstr "pending")])
          (some [("status", .jstr "complete")]) []) := by
  constructor
  · intro h
    simp only [complete_pending_operation,
      completeFirst_not_found w.clock op_id _ h]
    exact ⟨rfl, rfl⟩
  · intro pre op post hsplit hpre hop
    simp only [complete_pending_operation, hsplit,
      completeFirst_found w.clock op_id pre op post hpre hop]
    exact ⟨rfl, rfl⟩

/-- Witness for amended C4: the unknown-id branch on a fresh store and the
found branch on a store holding one pending operation. -/
theorem complete_pending_operation_cases_witness :
    ((complete_pending_operation initialWorld "zz").state.pending_operations =
        initialWorld.state.pending_operations ∧
      (complete_pending_operation initialWorld "zz").lineage =
        initialWorld.lineage) ∧
    ((complete_pending_operation
        (runOps [.addOperation "ab12cd34" "deploy" []] initialWorld)
        "ab12cd34").state.pending_operations =
      [] ++ (pySet (pySet
          [("id", JVal.jstr "ab12cd34"), ("type", JVal.jstr "deploy"),
           ("data", JVal.jdict []), ("created_at", JVal.jint 0),
           ("status", JVal.jstr "pending")]
          "status" (.jstr "complete")) "completed_at"
        (jnow (runOps [.addOperation "ab12cd34" "deploy" []]
          initialWorld).clock)) :: []) :=
  ⟨(complete_pending_operation_cases initialWorld "zz").1 (by decide),
    ((complete_pending_operation_cases
      (runOps [.addOperation "ab12cd34" "deploy" []] initialWorld)
      "ab12cd34").2 []
      [("id", JVal.jstr "ab12cd34"), ("type", JVal.jstr "deploy"),
       ("data", JVal.jdict []), ("created_at", JVal.jint 0),
       ("status", JVal.jstr "pending")] [] (by decide) (by decide)
      (by decide)).1⟩

/-- Claim C8: every append to the log goes through `record_lineage`, whose
result always holds at most 1000 entries, is exactly the appended log
capped at the most recent 1000 (a suffix — only oldest entries drop), and
every store operation keeps the log under `max (previous, 1000)`; saving
the current-state table (`save_state`) never touches, much less trims, the
sites / php / pending tables. -/
theorem lineage_log_retention (l : List LEntry) (t : ℤ)
    (ty id act : String) (old nw : Option Dct) (md : Dct) (s : FState)
    (t' : ℤ) (o : Op) (w : World) :
    (record_lineage l t ty id act old nw md).length ≤ 1000 ∧
    (record_lineage l t ty id act old nw md).length =
      min (l.length + 1) 1000 ∧
    record_lineage l t ty id act old nw md <:+
      l ++ [⟨t, ty, id, act, old, nw, md⟩] ∧
    (step o w).lineage.length ≤ max w.lineage.length 1000 ∧
    (save_state s t').sites = s.sites ∧
    (save_state s t').php = s.php ∧
    (save_state s t').pending_operations = s.pending_operations :=
  ⟨by rw [record_lineage_length]; omega,
    record_lineage_length l t ty id act old nw md,
    record_lineage_suffix l t ty id act old nw md,
    step_lineage_le o w, rfl, rfl, rfl⟩

/-- Claim C9: `get_recent_changes` with limit 0 returns the whole log
(Python `lineage[-0:]` is `lineage[0:]`), and with a positive limit
returns exactly the final `min limit length` entries (a suffix of that
length). -/
theorem get_recent_changes_zero_and_pos (l : List LEntry) (limit : ℕ) :
    get_recent_changes l 0 = l ∧
    (1 ≤ limit →
      (get_recent_changes l limit).length = min limit l.length ∧
      get_recent_changes l limit <:+ l) := by
  constructor
  · simp [get_recent_changes]
  · intro h
    rw [get_recent_changes, if_neg (by omega)]
    exact ⟨by rw [List.length_drop]; omega, List.drop_suffix _ _⟩

/-- Witness for C9: a three-entry log sliced with limit 2 (and limit 0). -/
theorem get_recent_changes_zero_and_pos_witness :
    (1 : ℕ) ≤ 2 ∧
    ((get_recent_changes [⟨0, "site", "a", "create", none, none, []⟩,
        ⟨1, "site", "b", "create", none, none, []⟩,
        ⟨2, "site", "a", "delete", none, none, []⟩] 2).length =
      min 2 ([⟨0, "site", "a", "create", none, none, []⟩,
        ⟨1, "site", "b", "create", none, none, []⟩,
        ⟨2, "site", "a", "delete", none, none, []⟩] : List LEntry).length ∧
      get_recent_changes [⟨0, "site", "a", "create", none, none, []⟩,
        ⟨1, "site", "b", "create", none, none, []⟩,
        ⟨2, "site", "a", "delete", none, none, []⟩] 2 <:+
        [⟨0, "site", "a", "create", none, none, []⟩,
         ⟨1, "site", "b", "create", none, none, []⟩,
         ⟨2, "site", "a", "delete", none, none, []⟩]) ∧
    get_recent_changes [⟨0, "site", "a", "create", none, none, []⟩,
      ⟨1, "site", "b", "create", none, none, []⟩,
      ⟨2, "site", "a", "delete", none, none, []⟩] 0 =
      [⟨0, "site", "a", "create", none, none, []⟩,
       ⟨1, "site", "b", "create", none, none, []⟩,
       ⟨2, "site", "a", "delete", none, none, []⟩] :=
  ⟨by decide,
    (get_recent_changes_zero_and_pos _ 2).2 (by decide),
    (get_recent_changes_zero_and_pos _ 2).1⟩

/-- Claim C10: `save_site_state` merges `extra` into the record after the
core fields, so a duplicate-free `extra` that binds a core field name
(e.g. `"type"`) wins: the stored record carries the `extra` value. -/
theorem extra_overrides_core_fields (w : World)
    (domain site_type : String) (ssl : Bool) (port : Option ℤ)
    (doc phpv : Option String) (en : Bool) (extra : Dct)
    (k : String) (v : JVal)
    (hnd : (extra.map Prod.fst).Nodup) (hk : pyGet extra k = some v) :
    ∃ r : Dct,
      pyGet (save_site_state w domain site_type ssl port doc phpv en
        extra).state.sites domain = some r ∧
      pyGet r k = some v := by
  refine ⟨pyMerge
    [("domain", .jstr domain), ("type", .jstr site_type),
     ("ssl_enabled", .jbool ssl), ("port", optInt port),
     ("document_root", optStr doc), ("php_version", optStr phpv),
     ("enabled", .jbool en),
     ("created_at",
       (pyGet ((pyGet w.state.sites domain).getD []) "created_at").getD
         (jnow w.clock)),
     ("updated_at", jnow w.clock)] extra,
    ?_, pyGet_pyMerge_mem _ extra k v hnd hk⟩
  show pyGet (pySet w.state.sites domain _) domain = some _
  rw [pyGet_pySet, if_pos rfl]

/-- Witness for C10: an `extra` that re-binds the core field `"type"`. -/
theorem extra_overrides_core_fields_witness :
    ([("type", JVal.jstr "php")].map Prod.fst).Nodup ∧
    ∃ r : Dct,
      pyGet (save_site_state initialWorld "a.com" "static" false none none
        none true [("type", JVal.jstr "php")]).state.sites "a.com" =
        some r ∧
      pyGet r "type" = some (JVal.jstr "php") :=
  ⟨by decide,
    extra_overrides_core_fields initialWorld "a.com" "static" false none
      none none true [("type", JVal.jstr "php")] "type" (JVal.jstr "php")
      (by decide) (by decide)⟩

end Forge
